import Mathlib

/-!
Shallow embedding of the replication / presence synchronization engine of the
hat-trick whiteboard (src/client/src/lib/p2pSync.ts: the mesh variant
`createP2PSync` and the relay variant `createSupabaseSync`, and
src/client/src/lib/useP2PPresence.ts), together with theorems settling the
spec claims about it.

Conventions: the tldraw DocumentStore is modelled as a finite partial map
`String → Option Rec`; `store.put` validates a record against the schema and
throws on an invalid one, which we model with a `valid : Bool` field on
records; `mergeRemoteChanges` runs its mutations with change source `remote`,
so a listener registered with `{source: "user"}` is only invoked for
`user`-sourced entries.
-/

namespace HatTrick

/-- A point on the page, as carried by presence cursors. -/
structure Point where
  x : Int
  y : Int
deriving DecidableEq, Repr

/-- A tldraw record as seen by the sync layer: an id, a `typeName`, an opaque
payload, and whether it passes the store's schema validation (`store.put`
throws on an invalid record). -/
structure Rec where
  id : String
  typeName : String
  payload : String
  valid : Bool
deriving DecidableEq, Repr

/-- `SYNCED_RECORD_TYPES = new Set(["shape", "page", "asset"])` and
`shouldSyncRecord` (p2pSync.ts lines 50-55, repeated in the relay variant
lines 351-355): a record is syncable iff its `typeName` is in the set. -/
def shouldSyncRecord (r : Rec) : Bool :=
  r.typeName == "shape" || r.typeName == "page" || r.typeName == "asset"

/-- JavaScript's `String.prototype.startsWith`, as a character-sequence
prefix test (spelled out so that it evaluates by kernel reduction). -/
def strStartsWith (s p : String) : Bool :=
  p.data.isPrefixOf s.data

/-- The prefix test applied to removed ids (p2pSync.ts lines 183, 261-263,
536-540, 624-629): `id.startsWith("shape:") || id.startsWith("page:") ||
id.startsWith("asset:")`. -/
def isSyncableId (id : String) : Bool :=
  strStartsWith id "shape:" || strStartsWith id "page:" || strStartsWith id "asset:"

/-- A `StoreChanges` wire payload: `{added, updated, removed}`
(p2pSync.ts lines 21-25). -/
structure StoreChanges where
  added : List Rec
  updated : List Rec
  removed : List String
deriving DecidableEq, Repr

/-- The change entry delivered to a `store.listen` callback: `entry.changes`
has `added` records, `updated` as (before, after) pairs, and removed ids. -/
structure ChangeEntry where
  added : List Rec
  updated : List (Rec × Rec)
  removed : List String
deriving DecidableEq, Repr

/-- The document store: a partial map from record id to record. -/
def Store : Type := String → Option Rec

/-- The empty store. -/
def emptyStore : Store := fun _ => none

/-- `store.put([r])`: unconditional overwrite keyed by `r.id`. -/
def putRec (s : Store) (r : Rec) : Store :=
  fun i => if i = r.id then some r else s i

/-- `store.remove([id])`: delete the entry with that id, if any. -/
def removeId (s : Store) (id : String) : Store :=
  fun i => if i = id then none else s i

/-- The put loop shared by all remote-apply blocks: `for record of recs: if
shouldSyncRecord(record) then store.put([record])` (p2pSync.ts lines 138-142,
171-180, 492-496, 525-534). -/
def putFold (recs : List Rec) (s : Store) : Store :=
  recs.foldl (fun st r => if shouldSyncRecord r then putRec st r else st) s

/-- The removal loop of the remote-apply blocks: `for id of removed: if the id
has a syncable prefix then store.remove([id])` (p2pSync.ts lines 181-186,
535-543). -/
def removeFold (ids : List String) (s : Store) : Store :=
  ids.foldl (fun st i => if isSyncableId i then removeId st i else st) s

/-- Applying an inbound `StoreChanges` payload inside `mergeRemoteChanges`,
assuming every put succeeds: added records, then updated records, then
removals (p2pSync.ts lines 170-187 and 524-544). -/
def applyUpdate (c : StoreChanges) (s : Store) : Store :=
  removeFold c.removed (putFold c.updated (putFold c.added s))

/-- Applying an inbound Snapshot (`onFullState`, p2pSync.ts lines 137-143, and
the relay bootstrap apply, lines 491-497): put each syncable record of the
snapshot; nothing is ever removed. -/
def applySnapshot (recs : List Rec) (s : Store) : Store :=
  putFold recs s

/-- The last syncable record with id `i` in a put list: the record that
determines the store's final value at `i` after the put loop. -/
def lastSyncPut (recs : List Rec) (i : String) : Option Rec :=
  (recs.filter (fun r => shouldSyncRecord r && r.id == i)).getLast?

/-- The outbound snapshot filter of `onStateRequest` (p2pSync.ts lines
103-116) and of the debounced save (lines 461-472): keep exactly the syncable
records of the full store snapshot. -/
def filterSnapshot (recs : List Rec) : List Rec :=
  recs.filter shouldSyncRecord

/-! ## Store listener and outbound broadcasts -/

/-- The source tag a tldraw store attaches to a change entry: `user` for
locally-originated edits, `remote` for mutations performed inside
`mergeRemoteChanges`. -/
inductive ChangeSource
  | user
  | remote
deriving DecidableEq, Repr

/-- Body of the local-change listener callback registered by `connect`
(p2pSync.ts lines 243-280 and, identically, 602-665): given the current value
of `isApplyingRemoteChanges` and a change entry, the outbound `store-update`
broadcast it emits, if any. `none` models the early returns (guard set, empty
entry, or nothing syncable left after filtering). -/
def localListenerMessage (isApplyingRemoteChanges : Bool) (entry : ChangeEntry) :
    Option StoreChanges :=
  if isApplyingRemoteChanges then none
  else if entry.added.isEmpty && entry.updated.isEmpty && entry.removed.isEmpty then none
  else
    let addedRecords := entry.added.filter shouldSyncRecord
    let updatedRecords := (entry.updated.map Prod.snd).filter shouldSyncRecord
    let removedIds := entry.removed.filter isSyncableId
    if addedRecords.isEmpty && updatedRecords.isEmpty && removedIds.isEmpty then none
    else some ⟨addedRecords, updatedRecords, removedIds⟩

/-- The listener is registered with `store.listen(cb, { source: "user" })`
(p2pSync.ts lines 280 and 664), so the store only invokes it for entries whose
source is `user`; an entry produced inside `mergeRemoteChanges` carries source
`remote` and is never delivered to it. -/
def listenerEmission (entrySource : ChangeSource) (isApplyingRemoteChanges : Bool)
    (entry : ChangeEntry) : Option StoreChanges :=
  if entrySource = ChangeSource.user then localListenerMessage isApplyingRemoteChanges entry
  else none

/-! ## Fallible application (`store.put` throws on an invalid record) -/

/-- The put loop of a remote-apply block when puts can throw: stops at the
first invalid syncable record, returning the partially mutated store and
`false` (tldraw's `store.put` throws on a record failing schema validation;
the surrounding `mergeRemoteChanges` re-raises). -/
def putFoldPartial (recs : List Rec) (s : Store) : Store × Bool :=
  match recs with
  | [] => (s, true)
  | r :: rest =>
    if shouldSyncRecord r then
      if r.valid then putFoldPartial rest (putRec s r) else (s, false)
    else putFoldPartial rest s

/-- Fallible version of `applyUpdate`: added puts, then updated puts, then
removals (removals never throw). The Bool is `true` iff no put threw. -/
def applyUpdatePartial (c : StoreChanges) (s : Store) : Store × Bool :=
  match putFoldPartial c.added s with
  | (s1, false) => (s1, false)
  | (s1, true) =>
    match putFoldPartial c.updated s1 with
    | (s2, false) => (s2, false)
    | (s2, true) => (removeFold c.removed s2, true)

/-! ## Mesh variant: `createP2PSync` engine state and handlers -/

/-- The closure state of `createP2PSync` (p2pSync.ts lines 57-75): whether
`joinRoom` has been performed, whether the editor is connected, the bootstrap
flag, the sync-loop guard, how many `store.listen` subscriptions `connect`
has registered, and the document store. -/
structure MeshState where
  roomJoined : Bool
  editorConnected : Bool
  hasReceivedInitialState : Bool
  isApplyingRemoteChanges : Bool
  listenerCount : Nat
  store : Store

/-- An inbound wire payload after transport delivery: either a string that
fails `JSON.parse`, an `update` changeset, or a `full-state` snapshot. -/
inductive InboundPayload
  | malformed
  | update (c : StoreChanges)
  | snapshot (recs : List Rec)

/-- `setupRoom` (p2pSync.ts lines 77-88): `if (room) return;` then join. -/
def setupRoom (st : MeshState) : MeshState :=
  if st.roomJoined then st else { st with roomJoined := true }

/-- `connect(editor)` (p2pSync.ts lines 236-307): sets the editor, runs
`setupRoom`, and unconditionally registers one more `store.listen`
subscription (the previous cleanup handle is overwritten, not invoked). -/
def connect (st : MeshState) : MeshState :=
  let st1 := setupRoom { st with editorConnected := true }
  { st1 with listenerCount := st1.listenerCount + 1 }

/-- The broadcasts produced by one locally-originated change entry: every
registered listener runs the same callback body (p2pSync.ts lines 243-280)
against the entry. -/
def localEditBroadcasts (st : MeshState) (entry : ChangeEntry) : List StoreChanges :=
  (List.replicate st.listenerCount
    (listenerEmission ChangeSource.user st.isApplyingRemoteChanges entry)).filterMap id

/-- The `onUpdate` handler (p2pSync.ts lines 156-194): early return without an
editor; `JSON.parse` failure is caught with the guard reset; an empty
changeset returns early; otherwise the guard is set, the changeset applied
under `mergeRemoteChanges`, and the guard reset both on the normal path and in
the `catch` branch. -/
def meshOnUpdate (p : InboundPayload) (st : MeshState) : MeshState :=
  if !st.editorConnected then st
  else
    match p with
    | .malformed => { st with isApplyingRemoteChanges := false }
    | .snapshot _ => st
    | .update c =>
      if c.added.isEmpty && c.updated.isEmpty && c.removed.isEmpty then st
      else
        let app := applyUpdatePartial c st.store
        { st with store := app.1, isApplyingRemoteChanges := false }

/-- The `onFullState` handler (p2pSync.ts lines 124-153): parse the snapshot,
set the guard, put each syncable record under `mergeRemoteChanges`, reset the
guard and mark `hasReceivedInitialState` on success; on any throw the `catch`
resets the guard but does not mark the bootstrap flag. -/
def meshOnFullState (p : InboundPayload) (st : MeshState) : MeshState :=
  if !st.editorConnected then st
  else
    match p with
    | .malformed => { st with isApplyingRemoteChanges := false }
    | .update _ => st
    | .snapshot recs =>
      match putFoldPartial recs st.store with
      | (s1, true) =>
        { st with store := s1, isApplyingRemoteChanges := false,
                  hasReceivedInitialState := true }
      | (s1, false) =>
        { st with store := s1, isApplyingRemoteChanges := false }

/-- Actions the bootstrap logic can emit. -/
inductive BootAction
  | requestBroadcast
  | requestTo (peerId : String)
  | scheduleSecondCheck
deriving DecidableEq, Repr

/-- The first bootstrap timer body (p2pSync.ts lines 283-306, outer
`setTimeout` at 3000 ms): with peers present and no initial state yet, request
state from everyone; with no peers, schedule the second check. -/
def firstBootstrapCheck (st : MeshState) (peerIds : List String) :
    MeshState × List BootAction :=
  if !st.roomJoined then (st, [])
  else if peerIds.length > 0 && !st.hasReceivedInitialState then
    (st, [BootAction.requestBroadcast])
  else if peerIds.length == 0 then (st, [BootAction.scheduleSecondCheck])
  else (st, [])

/-- The second bootstrap timer body (p2pSync.ts lines 294-304, inner
`setTimeout` at 4000 ms): still no peers means the room is treated as empty
and the engine marks itself bootstrapped; peers found now means a state
request is finally sent. -/
def secondBootstrapCheck (st : MeshState) (peerIds : List String) :
    MeshState × List BootAction :=
  if !st.roomJoined then (st, [])
  else if !st.hasReceivedInitialState && peerIds.length == 0 then
    ({ st with hasReceivedInitialState := true }, [])
  else if !st.hasReceivedInitialState && peerIds.length > 0 then
    (st, [BootAction.requestBroadcast])
  else (st, [])

/-- The `room.onPeerJoin` handler (p2pSync.ts lines 209-220): before bootstrap
completes, proactively request state from the newly seen peer. -/
def meshOnPeerJoin (st : MeshState) (peerId : String) : List BootAction :=
  if st.editorConnected && !st.hasReceivedInitialState then [BootAction.requestTo peerId]
  else []

/-! ## Relay variant: `createSupabaseSync` engine state and handlers -/

/-- The closure state of `createSupabaseSync` (p2pSync.ts lines 389-405):
channel subscription, editor, guard, the tracked peer count, listener
subscriptions, and the store. -/
structure RelayState where
  channelJoined : Bool
  editorConnected : Bool
  isApplyingRemoteChanges : Bool
  peerCount : Int
  listenerCount : Nat
  store : Store

/-- The `store-update` broadcast handler of the relay variant (p2pSync.ts
lines 510-546). There is no try/catch: a payload missing its fields throws at
the `console.log` before the guard is set, and a put that throws inside
`mergeRemoteChanges` propagates after the guard was set, so the line resetting
the guard never runs and the guard stays `true`. -/
def relayOnBroadcast (p : InboundPayload) (st : RelayState) : RelayState :=
  if !st.editorConnected || st.isApplyingRemoteChanges then st
  else
    match p with
    | .malformed => st
    | .snapshot _ => st
    | .update c =>
      match applyUpdatePartial c st.store with
      | (s1, true) => { st with store := s1, isApplyingRemoteChanges := false }
      | (s1, false) => { st with store := s1, isApplyingRemoteChanges := true }

/-- The relay bootstrap apply (p2pSync.ts lines 483-499): if a non-empty
snapshot was loaded from the database, set the guard, put each syncable record
under `mergeRemoteChanges`, and reset the guard. Again no try/catch: a
throwing put leaves the guard set. `none` models both a missing room row and
any load error (all caught inside `loadRoomState`, which returns null). -/
def relayBootstrapApply (loaded : Option (List Rec)) (st : RelayState) : RelayState :=
  match loaded with
  | none => st
  | some recs =>
    if recs.isEmpty then st
    else
      match putFoldPartial recs st.store with
      | (s1, true) => { st with store := s1, isApplyingRemoteChanges := false }
      | (s1, false) => { st with store := s1, isApplyingRemoteChanges := true }

/-- A membership event delivered to the UI callbacks. -/
inductive PeerEvent
  | join (key : String)
  | leave (key : String)
deriving DecidableEq, Repr

/-- The relay presence `sync` handler's membership bookkeeping (p2pSync.ts
lines 549-569): recompute the peer count as the membership-set size minus one
for self; on an increase fire a join for every present key other than self; on
a decrease fire one leave with the literal `"unknown"`. Returns the new
tracked count and the emitted events. -/
def presenceSyncStep (selfId : String) (oldCount : Int) (stateKeys : List String) :
    Int × List PeerEvent :=
  let newPeerCount : Int := (stateKeys.length : Int) - 1
  let events :=
    if newPeerCount > oldCount then
      (stateKeys.filter (fun k => k ≠ selfId)).map PeerEvent.join
    else if newPeerCount < oldCount then [PeerEvent.leave "unknown"]
    else []
  (newPeerCount, events)

/-! ## Debounced persistence (relay variant) -/

/-- One step of `debouncedSave` (p2pSync.ts lines 454-475) over a timeline:
`pending` is the fire time of the currently scheduled `setTimeout`, if any.
An invocation at time `t` first lets a pending save fire if its time has
already passed (`f ≤ t`), then clears any still-pending timer and schedules a
new one at `t + 1000`. The returned list is the save times emitted. -/
def debounceGo : List Nat → Option Nat → List Nat
  | [], none => []
  | [], some f => [f]
  | t :: rest, none => debounceGo rest (some (t + 1000))
  | t :: rest, some f =>
    if f ≤ t then f :: debounceGo rest (some (t + 1000))
    else debounceGo rest (some (t + 1000))

/-- The save times produced by a sequence of `debouncedSave` invocations at
the given (non-decreasing) times, starting with no timer pending, letting the
final pending timer fire. -/
def debounceRun (editTimes : List Nat) : List Nat :=
  debounceGo editTimes none

/-- A burst: consecutive invocation times are non-decreasing and strictly less
than the 1000 ms debounce quiet period apart. -/
def isCloseBurst : List Nat → Bool
  | [] => true
  | [_] => true
  | a :: b :: rest => (a ≤ b && b < a + 1000) && isCloseBurst (b :: rest)

/-! ## Presence (useP2PPresence.ts) -/

/-- A stored remote cursor (`TLInstancePresence.cursor`): position plus the
`type` and `rotation` fields (the source's `type` field is spelled `kind`
here because `type` is a Lean keyword). -/
structure Cursor where
  x : Int
  y : Int
  kind : String
  rotation : Int
deriving DecidableEq, Repr

/-- An inbound `PresenceData` payload (p2pSync.ts lines 27-34). -/
structure PresencePayload where
  oderId : String
  userName : String
  color : String
  cursor : Option Point
  chatMessage : Option String
  currentPageId : String
deriving DecidableEq, Repr

/-- The fields of the `TLInstancePresence` record built by the
`onPresenceUpdate` callback that this development tracks. -/
structure StoredPresence where
  id : String
  userId : String
  userName : String
  color : String
  cursor : Cursor
  currentPageId : String
  chatMessage : String
deriving DecidableEq, Repr

/-- The default cursor used when a `null` cursor arrives and no previous
presence record exists (useP2PPresence.ts lines 81-86). -/
def defaultCursor : Cursor := ⟨0, 0, "default", 0⟩

/-- The presence record built by the `onPresenceUpdate` callback
(useP2PPresence.ts lines 60-98): a non-null payload cursor is stored as-is; a
null one falls back to the existing record's cursor, or to the origin default
when there is no existing record. -/
def buildPresenceRecord (peerId : String) (p : PresencePayload)
    (existing : Option StoredPresence) : StoredPresence :=
  { id := "instance_presence:" ++ peerId
    userId := p.oderId
    userName := p.userName
    color := p.color
    cursor :=
      match p.cursor with
      | some pt => ⟨pt.x, pt.y, "default", 0⟩
      | none => ((existing.map StoredPresence.cursor).getD defaultCursor)
    currentPageId := p.currentPageId
    chatMessage := p.chatMessage.getD "" }

/-- The stored presence record for a peer after a sequence of inbound
payloads, each upserted over the previous one (the record put under
`mergeRemoteChanges` becomes the `existing` record of the next payload). -/
def storedPresenceAfter (peerId : String) (payloads : List PresencePayload) :
    Option StoredPresence :=
  payloads.foldl (fun ex p => some (buildPresenceRecord peerId p ex)) none

/-- The last non-null cursor position in a payload sequence. -/
def lastNonNullCursor (payloads : List PresencePayload) : Option Point :=
  (payloads.filterMap PresencePayload.cursor).getLast?

/-- The stored cursor determined by an optional position: the position with
the default decoration, or the origin default when there is none. -/
def cursorOfOpt : Option Point → Cursor
  | some pt => ⟨pt.x, pt.y, "default", 0⟩
  | none => defaultCursor

/-! ## Sample values used by concrete witnesses and counterexamples -/

/-- A valid syncable shape record. -/
def shapeRec : Rec := ⟨"shape:s1", "shape", "box", true⟩

/-- A local-only camera record: its type is not in the syncable set. -/
def cameraRec : Rec := ⟨"camera:c1", "camera", "view", true⟩

/-- A syncable shape record that fails schema validation: `store.put` throws
on it. -/
def invalidShapeRec : Rec := ⟨"shape:bad", "shape", "junk", false⟩

/-- A mesh engine state after joining a room with the editor connected, one
listener registered, not yet bootstrapped. -/
def meshStateJoined : MeshState := ⟨true, true, false, false, 1, emptyStore⟩

/-- A mesh engine state before any `connect` call. -/
def meshStateInit : MeshState := ⟨false, false, false, false, 0, emptyStore⟩

/-- A relay engine state subscribed with the editor connected and the guard
clear. -/
def relayStateReady : RelayState := ⟨true, true, false, 0, 1, emptyStore⟩

/-- A change entry adding one syncable shape and one local-only camera
record. -/
def sampleEntry : ChangeEntry := ⟨[shapeRec, cameraRec], [], ["camera:c1", "shape:s2"]⟩

/-! ## Helper lemmas -/

theorem putFold_concat (recs : List Rec) (r : Rec) (s : Store) :
    putFold (recs ++ [r]) s =
      if shouldSyncRecord r then putRec (putFold recs s) r else putFold recs s := by
  simp [putFold, List.foldl_append]

theorem lastSyncPut_concat (recs : List Rec) (r : Rec) (i : String) :
    lastSyncPut (recs ++ [r]) i =
      if shouldSyncRecord r && r.id == i then some r else lastSyncPut recs i := by
  simp only [lastSyncPut, List.filter_append]
  by_cases h : (shouldSyncRecord r && r.id == i) = true
  · simp [List.filter_cons, h, List.getLast?_concat]
  · simp [List.filter_cons, h]

theorem putFold_eval (recs : List Rec) (s : Store) (i : String) :
    putFold recs s i = (lastSyncPut recs i).or (s i) := by
  induction recs using List.reverseRecOn with
  | nil => simp [putFold, lastSyncPut]
  | append_singleton l r ih =>
    rw [putFold_concat, lastSyncPut_concat]
    by_cases hs : shouldSyncRecord r
    · by_cases hid : r.id = i
      · simp [hs, hid, putRec]
      · have hb : ¬((shouldSyncRecord r && r.id == i) = true) := by simp [hid]
        rw [if_pos hs, if_neg hb]
        simp only [putRec]
        rw [if_neg (fun h => hid h.symm)]
        exact ih
    · have hb : ¬((shouldSyncRecord r && r.id == i) = true) := by simp [hs]
      rw [if_neg hs, if_neg hb]
      exact ih

theorem removeFold_concat (ids : List String) (j : String) (s : Store) :
    removeFold (ids ++ [j]) s =
      if isSyncableId j then removeId (removeFold ids s) j else removeFold ids s := by
  simp [removeFold, List.foldl_append]

theorem removeFold_eval (ids : List String) (s : Store) (i : String) :
    removeFold ids s i = if isSyncableId i ∧ i ∈ ids then none else s i := by
  induction ids using List.reverseRecOn with
  | nil => simp [removeFold]
  | append_singleton l j ih =>
    rw [removeFold_concat]
    by_cases hj : isSyncableId j
    · by_cases hij : i = j
      · subst hij
        simp [hj, removeId]
      · simp only [hj, if_true, removeId]
        rw [if_neg hij, ih]
        simp [List.mem_append, hij]
    · simp only [hj, Bool.false_eq_true, if_false]
      rw [ih]
      by_cases hi : isSyncableId i
      · have hij : i ≠ j := fun h => hj (h ▸ hi)
        simp [hi, List.mem_append, hij]
      · simp [hi]

/-- Pointwise characterization of `applyUpdate`: a syncable removed id ends up
absent; otherwise the last syncable put for the id wins; otherwise the store
is untouched at that id. -/
theorem applyUpdate_eval (c : StoreChanges) (s : Store) (i : String) :
    applyUpdate c s i =
      if isSyncableId i ∧ i ∈ c.removed then none
      else (lastSyncPut (c.added ++ c.updated) i).or (s i) := by
  unfold applyUpdate
  rw [removeFold_eval]
  by_cases h : isSyncableId i ∧ i ∈ c.removed
  · simp [h]
  · simp only [h, if_false]
    rw [putFold_eval, putFold_eval]
    have hsplit : lastSyncPut (c.added ++ c.updated) i =
        (lastSyncPut c.updated i).or (lastSyncPut c.added i) := by
      simp [lastSyncPut, List.filter_append, List.getLast?_append]
    rw [hsplit, Option.or_assoc]

/-- When every syncable record of the list is valid, the fallible put loop
succeeds and agrees with `putFold`. -/
theorem putFoldPartial_of_valid (recs : List Rec) (s : Store)
    (h : ∀ r ∈ recs, shouldSyncRecord r = true → r.valid = true) :
    putFoldPartial recs s = (putFold recs s, true) := by
  induction recs generalizing s with
  | nil => simp [putFoldPartial, putFold]
  | cons r rest ih =>
    have hrest : ∀ r2 ∈ rest, shouldSyncRecord r2 = true → r2.valid = true := by
      intro r2 hr2 hs2
      exact h r2 (List.mem_cons_of_mem r hr2) hs2
    by_cases hs : shouldSyncRecord r
    · have hv : r.valid = true := h r (List.mem_cons_self r rest) hs
      simp [putFoldPartial, putFold, hs, hv, ih _ hrest]
    · simp [putFoldPartial, putFold, hs, ih _ hrest]

/-- When every syncable record of the changeset is valid, the fallible apply
succeeds and agrees with `applyUpdate`. -/
theorem applyUpdatePartial_of_valid (c : StoreChanges) (s : Store)
    (h : ∀ r ∈ c.added ++ c.updated, shouldSyncRecord r = true → r.valid = true) :
    applyUpdatePartial c s = (applyUpdate c s, true) := by
  have ha : ∀ r ∈ c.added, shouldSyncRecord r = true → r.valid = true := by
    intro r hr; exact h r (List.mem_append_left _ hr)
  have hu : ∀ r ∈ c.updated, shouldSyncRecord r = true → r.valid = true := by
    intro r hr; exact h r (List.mem_append_right _ hr)
  simp [applyUpdatePartial, applyUpdate, putFoldPartial_of_valid _ _ ha,
    putFoldPartial_of_valid _ _ hu]

theorem storedPresenceAfter_concat (k : String) (xs : List PresencePayload)
    (p : PresencePayload) :
    storedPresenceAfter k (xs ++ [p]) =
      some (buildPresenceRecord k p (storedPresenceAfter k xs)) := by
  simp [storedPresenceAfter, List.foldl_append]

theorem lastNonNullCursor_concat (xs : List PresencePayload) (p : PresencePayload) :
    lastNonNullCursor (xs ++ [p]) =
      match p.cursor with
      | some pt => some pt
      | none => lastNonNullCursor xs := by
  cases hc : p.cursor with
  | some pt =>
    simp [lastNonNullCursor, List.filterMap_append, hc, List.getLast?_append,
      List.filterMap_cons]
  | none =>
    simp [lastNonNullCursor, List.filterMap_append, hc, List.filterMap_cons]

/-! ## Claim theorems -/

/-- C1: while a remote ChangeSet, Snapshot, or Presence payload is being
applied, no outbound `store-update` broadcast is emitted. Every store
mutation performed by a remote apply runs inside `mergeRemoteChanges`, so the
resulting change entries carry source `remote` and the listener — registered
with `{source: "user"}` — emits nothing for them whatever the guard's value;
this covers the presence upsert path, which runs with the guard still `false`.
The document handlers additionally hold `isApplyingRemoteChanges = true` for
the duration of the apply block, and a `user`-sourced entry delivered then is
dropped by the guard check, so no registered listener broadcasts either. -/
theorem c1_remote_apply_never_broadcasts :
    (∀ (g : Bool) (entry : ChangeEntry),
        listenerEmission ChangeSource.remote g entry = none)
  ∧ (∀ entry : ChangeEntry, listenerEmission ChangeSource.user true entry = none)
  ∧ (∀ (st : MeshState) (entry : ChangeEntry),
        st.isApplyingRemoteChanges = true → localEditBroadcasts st entry = []) := by
  refine ⟨fun g entry => ?_, fun entry => ?_, fun st entry hg => ?_⟩
  · simp [listenerEmission]
  · simp [listenerEmission, localListenerMessage]
  · simp [localEditBroadcasts, listenerEmission, localListenerMessage, hg]

/-- Witness for C1 at a concrete state and entry: with the guard set on
`meshStateJoined`, the sample entry produces no broadcast. -/
theorem c1_witness :
    ({ meshStateJoined with isApplyingRemoteChanges := true } : MeshState).isApplyingRemoteChanges
      = true
  ∧ localEditBroadcasts { meshStateJoined with isApplyingRemoteChanges := true } sampleEntry
      = [] :=
  ⟨rfl, c1_remote_apply_never_broadcasts.2.2
    { meshStateJoined with isApplyingRemoteChanges := true } sampleEntry rfl⟩

/-- C2: symmetric type filtering. Outbound: a record occurs in a broadcast
ChangeSet iff it occurs in the local change entry and its `typeName` is
syncable, a removed id crosses the wire iff its string has a syncable prefix,
and a record occurs in an outbound Snapshot iff it is in the store and
syncable. Inbound: an id is untouched by an apply when the payload holds no
syncable record and no syncable-prefixed removal for it, a syncable-prefixed
removal is always applied, and a put lands iff the record is syncable.
Finally `shouldSyncRecord` holds exactly for typeNames shape / page / asset,
so presence, camera, and instance records never cross in either direction. -/
theorem c2_type_filtering :
    (∀ (g : Bool) (entry : ChangeEntry) (m : StoreChanges),
        localListenerMessage g entry = some m →
        (∀ r : Rec, r ∈ m.added ↔ r ∈ entry.added ∧ shouldSyncRecord r = true)
      ∧ (∀ r : Rec, r ∈ m.updated ↔
          (∃ p ∈ entry.updated, p.2 = r) ∧ shouldSyncRecord r = true)
      ∧ (∀ i : String, i ∈ m.removed ↔ i ∈ entry.removed ∧ isSyncableId i = true))
  ∧ (∀ (recs : List Rec) (r : Rec),
        r ∈ filterSnapshot recs ↔ r ∈ recs ∧ shouldSyncRecord r = true)
  ∧ (∀ (c : StoreChanges) (s : Store) (i : String),
        (∀ r ∈ c.added ++ c.updated, shouldSyncRecord r = true → r.id ≠ i) →
        (i ∈ c.removed → isSyncableId i = false) →
        applyUpdate c s i = s i)
  ∧ (∀ (c : StoreChanges) (s : Store) (i : String),
        isSyncableId i = true → i ∈ c.removed → applyUpdate c s i = none)
  ∧ (∀ r : Rec, shouldSyncRecord r = true ↔
        (r.typeName = "shape" ∨ r.typeName = "page" ∨ r.typeName = "asset")) := by
  refine ⟨?_, ?_, ?_, ?_, ?_⟩
  · intro g entry m h
    by_cases hg : g = true
    · rw [localListenerMessage, if_pos hg] at h
      cases h
    · rw [localListenerMessage, if_neg hg] at h
      by_cases h1 :
          (entry.added.isEmpty && entry.updated.isEmpty && entry.removed.isEmpty) = true
      · rw [if_pos h1] at h
        cases h
      · rw [if_neg h1] at h
        simp only at h
        by_cases h2 :
            ((entry.added.filter shouldSyncRecord).isEmpty &&
             ((entry.updated.map Prod.snd).filter shouldSyncRecord).isEmpty &&
             (entry.removed.filter isSyncableId).isEmpty) = true
        · rw [if_pos h2] at h
          cases h
        · rw [if_neg h2] at h
          injection h with h
          subst h
          refine ⟨fun r => ?_, fun r => ?_, fun i => ?_⟩
          · simp [List.mem_filter]
          · simp [List.mem_filter, List.mem_map]
          · simp [List.mem_filter]
  · intro recs r
    simp [filterSnapshot, List.mem_filter]
  · intro c s i hput hrem
    rw [applyUpdate_eval]
    have hr : ¬(isSyncableId i = true ∧ i ∈ c.removed) := by
      rintro ⟨hi, hmem⟩
      rw [hrem hmem] at hi
      cases hi
    rw [if_neg hr]
    have hnone : lastSyncPut (c.added ++ c.updated) i = none := by
      rw [lastSyncPut, List.getLast?_eq_none_iff, List.filter_eq_nil_iff]
      intro r hrr
      simp only [Bool.and_eq_true, beq_iff_eq, not_and]
      intro hs
      exact fun hid => hput r hrr hs hid
    rw [hnone, Option.none_or]
  · intro c s i hi hmem
    rw [applyUpdate_eval, if_pos ⟨hi, hmem⟩]
  · intro r
    simp only [shouldSyncRecord, Bool.or_eq_true, beq_iff_eq]
    tauto

/-- Witness for C2 at concrete inputs: the sample entry (one shape, one
camera, a camera removal alongside a shape removal) broadcasts exactly the
shape record and the shape-prefixed removal. -/
theorem c2_witness :
    localListenerMessage false sampleEntry = some ⟨[shapeRec], [], ["shape:s2"]⟩
  ∧ (shapeRec ∈ ([shapeRec] : List Rec) ↔
      shapeRec ∈ sampleEntry.added ∧ shouldSyncRecord shapeRec = true)
  ∧ ("camera:c1" ∈ (["shape:s2"] : List String) ↔
      "camera:c1" ∈ sampleEntry.removed ∧ isSyncableId "camera:c1" = true) := by
  have h := c2_type_filtering.1 false sampleEntry ⟨[shapeRec], [], ["shape:s2"]⟩ (by decide)
  exact ⟨by decide, h.1 shapeRec, h.2.2 "camera:c1"⟩

/-- C7: presence cursor fallback. A `null` inbound cursor for peer P keeps the
cursor of P's existing stored record, defaulting to the origin when no record
exists yet; consequently after any non-empty payload sequence the stored
cursor is exactly the last non-null cursor received, or the `{0,0}` default
when every payload so far carried a null cursor. -/
theorem c7_presence_cursor_fallback :
    (∀ (k : String) (p : PresencePayload) (ex : Option StoredPresence),
        p.cursor = none →
        (buildPresenceRecord k p ex).cursor =
          (ex.map StoredPresence.cursor).getD defaultCursor)
  ∧ (∀ (k : String) (payloads : List PresencePayload) (p : PresencePayload),
        (storedPresenceAfter k (payloads ++ [p])).map StoredPresence.cursor =
          some (cursorOfOpt (lastNonNullCursor (payloads ++ [p])))) := by
  constructor
  · intro k p ex hc
    simp [buildPresenceRecord, hc]
  · intro k payloads
    induction payloads using List.reverseRecOn with
    | nil =>
      intro p
      cases hc : p.cursor with
      | some pt =>
        simp [storedPresenceAfter, buildPresenceRecord, hc, cursorOfOpt,
          lastNonNullCursor]
      | none =>
        simp [storedPresenceAfter, buildPresenceRecord, hc, cursorOfOpt,
          lastNonNullCursor]
    | append_singleton xs q ih =>
      intro p
      rw [storedPresenceAfter_concat, lastNonNullCursor_concat]
      have hq := ih q
      cases hst : storedPresenceAfter k (xs ++ [q]) with
      | none => rw [hst] at hq; cases hq
      | some rec0 =>
        rw [hst] at hq
        have hq2 : rec0.cursor = cursorOfOpt (lastNonNullCursor (xs ++ [q])) := by
          simpa using hq
        cases hc : p.cursor with
        | some pt =>
          simp [buildPresenceRecord, hc, cursorOfOpt, hst]
        | none =>
          simp [buildPresenceRecord, hc, hst, hq2]

/-- Witness for C7: a null-cursor payload applied over an existing record at
(5,6) keeps (5,6). -/
theorem c7_witness :
    (⟨"u1", "alice", "red", none, none, "page:p1"⟩ : PresencePayload).cursor = none
  ∧ (buildPresenceRecord "p1" ⟨"u1", "alice", "red", none, none, "page:p1"⟩
        (some ⟨"instance_presence:p1", "u1", "alice", "red", ⟨5, 6, "default", 0⟩,
          "page:p1", ""⟩)).cursor = ⟨5, 6, "default", 0⟩ := by
  refine ⟨rfl, ?_⟩
  rw [c7_presence_cursor_fallback.1 "p1" ⟨"u1", "alice", "red", none, none, "page:p1"⟩
    (some ⟨"instance_presence:p1", "u1", "alice", "red", ⟨5, 6, "default", 0⟩,
      "page:p1", ""⟩) rfl]
  rfl

/-- C4: mesh bootstrap. When the room is joined but no initial state has
arrived: the first timer with no peers visible schedules the second wait
window instead of giving up; the second timer with still no peers marks the
engine bootstrapped (room treated as empty, no error action emitted), while
finding peers at the second window sends the state request; and a peer
joining before bootstrap completes triggers a state request addressed to that
peer. -/
theorem c4_mesh_bootstrap (st : MeshState) (q p : String) (qs : List String)
    (hroom : st.roomJoined = true) (hboot : st.hasReceivedInitialState = false)
    (hed : st.editorConnected = true) :
    firstBootstrapCheck st [] = (st, [BootAction.scheduleSecondCheck])
  ∧ (secondBootstrapCheck st []).1.hasReceivedInitialState = true
  ∧ (secondBootstrapCheck st []).2 = []
  ∧ secondBootstrapCheck st (q :: qs) = (st, [BootAction.requestBroadcast])
  ∧ meshOnPeerJoin st p = [BootAction.requestTo p] := by
  refine ⟨?_, ?_, ?_, ?_, ?_⟩ <;>
    simp [firstBootstrapCheck, secondBootstrapCheck, meshOnPeerJoin, hroom, hboot, hed]

/-- Witness for C4 at the concrete joined state. -/
theorem c4_witness :
    meshStateJoined.roomJoined = true
  ∧ meshStateJoined.hasReceivedInitialState = false
  ∧ meshStateJoined.editorConnected = true
  ∧ firstBootstrapCheck meshStateJoined []
      = (meshStateJoined, [BootAction.scheduleSecondCheck])
  ∧ (secondBootstrapCheck meshStateJoined []).1.hasReceivedInitialState = true
  ∧ meshOnPeerJoin meshStateJoined "peerA" = [BootAction.requestTo "peerA"] :=
  have h := c4_mesh_bootstrap meshStateJoined "peerB" "peerA" [] rfl rfl rfl
  ⟨rfl, rfl, rfl, h.1, h.2.1, h.2.2.2.2⟩

/-- C9: applying the identical ChangeSet twice through the remote-apply path
yields exactly the store produced by applying it once — each id touched by
the changeset ends in a state determined by the changeset alone, and other
ids are untouched. -/
theorem c9_apply_idempotent (c : StoreChanges) (s : Store) :
    applyUpdate c (applyUpdate c s) = applyUpdate c s := by
  funext i
  rw [applyUpdate_eval c (applyUpdate c s) i, applyUpdate_eval c s i]
  by_cases h : isSyncableId i ∧ i ∈ c.removed
  · simp [h]
  · simp only [h, if_false]
    cases hl : lastSyncPut (c.added ++ c.updated) i with
    | some r => rfl
    | none => simp [h]

/-- C10: applying a remote Snapshot only puts the syncable records it
contains: the store is unchanged at every id for which the snapshot holds no
syncable record (local-only records and syncable records absent from the
snapshot alike), and no record present before the apply is ever removed by
it. -/
theorem c10_snapshot_apply_frame (recs : List Rec) (s : Store) (i : String) :
    ((∀ r ∈ recs, shouldSyncRecord r = true → r.id ≠ i) →
        applySnapshot recs s i = s i)
  ∧ (∀ r0 : Rec, s i = some r0 → ∃ r1 : Rec, applySnapshot recs s i = some r1) := by
  constructor
  · intro h
    have hnone : lastSyncPut recs i = none := by
      rw [lastSyncPut, List.getLast?_eq_none_iff, List.filter_eq_nil_iff]
      intro r hr
      simp only [Bool.and_eq_true, beq_iff_eq, not_and]
      intro hs
      exact fun hid => h r hr hs hid
    rw [applySnapshot, putFold_eval, hnone, Option.none_or]
  · intro r0 h0
    rw [applySnapshot, putFold_eval]
    cases lastSyncPut recs i with
    | some r1 => exact ⟨r1, rfl⟩
    | none => exact ⟨r0, by rw [Option.none_or, h0]⟩

/-- Witness for C10: a snapshot holding one shape and one camera record,
applied over a store holding a different camera record, leaves the local
camera record unchanged and removes nothing. -/
theorem c10_witness :
    (∀ r ∈ [shapeRec, cameraRec], shouldSyncRecord r = true → r.id ≠ "camera:view9")
  ∧ applySnapshot [shapeRec, cameraRec] (putRec emptyStore ⟨"camera:view9", "camera", "v", true⟩)
      "camera:view9"
      = putRec emptyStore ⟨"camera:view9", "camera", "v", true⟩ "camera:view9" := by
  refine ⟨by decide, ?_⟩
  exact (c10_snapshot_apply_frame [shapeRec, cameraRec]
    (putRec emptyStore ⟨"camera:view9", "camera", "v", true⟩) "camera:view9").1 (by decide)

/-- C3 counterexample: the claim that the guard is reset on every exit path
in both transport variants is false. In the relay variant a changeset whose
apply throws (here: a syncable record failing schema validation) leaves
`isApplyingRemoteChanges` stuck at `true`, both in the broadcast handler and
in the bootstrap apply, because neither wraps the apply in try/catch
(p2pSync.ts lines 510-546 and 483-499). -/
theorem c3_counterexample :
    relayStateReady.isApplyingRemoteChanges = false
  ∧ (relayOnBroadcast (InboundPayload.update ⟨[invalidShapeRec], [], []⟩)
      relayStateReady).isApplyingRemoteChanges = true
  ∧ (relayBootstrapApply (some [invalidShapeRec])
      relayStateReady).isApplyingRemoteChanges = true :=
  ⟨rfl, rfl, rfl⟩

/-- C3 amended: in the mesh variant the guard is indeed reset on every exit
path — malformed payloads and throwing applies are caught with the guard
released and the session continues. In the relay variant the guard is reset
only when the apply completes without throwing; a throwing apply (broadcast
handler or bootstrap load) leaves the guard set and the error uncaught. -/
theorem c3_guard_release_amended (p : InboundPayload) (st : MeshState)
    (c : StoreChanges) (recs : List Rec) (rst : RelayState)
    (hm : st.isApplyingRemoteChanges = false)
    (hr : rst.isApplyingRemoteChanges = false)
    (hed : rst.editorConnected = true) :
    (meshOnUpdate p st).isApplyingRemoteChanges = false
  ∧ (meshOnFullState p st).isApplyingRemoteChanges = false
  ∧ ((applyUpdatePartial c rst.store).2 = true →
      (relayOnBroadcast (InboundPayload.update c) rst).isApplyingRemoteChanges = false)
  ∧ ((applyUpdatePartial c rst.store).2 = false →
      (relayOnBroadcast (InboundPayload.update c) rst).isApplyingRemoteChanges = true)
  ∧ (recs ≠ [] → (putFoldPartial recs rst.store).2 = false →
      (relayBootstrapApply (some recs) rst).isApplyingRemoteChanges = true) := by
  refine ⟨?_, ?_, ?_, ?_, ?_⟩
  · by_cases he : st.editorConnected
    · cases p with
      | malformed => simp [meshOnUpdate, he]
      | snapshot recs2 => simp [meshOnUpdate, he, hm]
      | update c2 =>
        by_cases hempty :
            (c2.added.isEmpty && c2.updated.isEmpty && c2.removed.isEmpty) = true
        · simp [meshOnUpdate, he, hempty, hm]
        · simp [meshOnUpdate, he, hempty]
    · simp [meshOnUpdate, he, hm]
  · by_cases he : st.editorConnected
    · cases p with
      | malformed => simp [meshOnFullState, he]
      | update c2 => simp [meshOnFullState, he, hm]
      | snapshot recs2 =>
        simp only [meshOnFullState, he, Bool.not_true, Bool.false_eq_true, if_false]
        rcases hput : putFoldPartial recs2 st.store with ⟨s1, ok⟩
        cases ok <;> simp
    · simp [meshOnFullState, he, hm]
  · intro hok
    simp only [relayOnBroadcast, hed, hr, Bool.not_true, Bool.or_false,
      Bool.false_eq_true, if_false]
    rcases happ : applyUpdatePartial c rst.store with ⟨s1, ok⟩
    rw [happ] at hok
    simp only at hok
    subst hok
    simp
  · intro hbad
    simp only [relayOnBroadcast, hed, hr, Bool.not_true, Bool.or_false,
      Bool.false_eq_true, if_false]
    rcases happ : applyUpdatePartial c rst.store with ⟨s1, ok⟩
    rw [happ] at hbad
    simp only at hbad
    subst hbad
    simp
  · intro hne hbad
    simp only [relayBootstrapApply]
    rw [if_neg (by simpa using hne)]
    rcases hput : putFoldPartial recs rst.store with ⟨s1, ok⟩
    rw [hput] at hbad
    simp only at hbad
    subst hbad
    simp

/-- Witness for C3's amended theorem at concrete states and payloads. -/
theorem c3_witness :
    meshStateJoined.isApplyingRemoteChanges = false
  ∧ relayStateReady.isApplyingRemoteChanges = false
  ∧ relayStateReady.editorConnected = true
  ∧ (meshOnUpdate InboundPayload.malformed meshStateJoined).isApplyingRemoteChanges
      = false
  ∧ ((applyUpdatePartial ⟨[shapeRec], [], []⟩ relayStateReady.store).2 = true →
      (relayOnBroadcast (InboundPayload.update ⟨[shapeRec], [], []⟩)
        relayStateReady).isApplyingRemoteChanges = false) :=
  have h := c3_guard_release_amended InboundPayload.malformed meshStateJoined
    ⟨[shapeRec], [], []⟩ [invalidShapeRec] relayStateReady rfl rfl rfl
  ⟨rfl, rfl, rfl, h.1, h.2.2.1⟩

/-- C5 counterexample: the claim that `onPeerJoin` fires exactly once per
newly observed key is false. With self `"me"`, a first sync `{me, A}` fires a
join for A; a second sync `{me, A, B}` fires joins for both A and B, although
A was already known — the handler iterates every non-self key on any count
increase (p2pSync.ts lines 556-563). -/
theorem c5_counterexample :
    (presenceSyncStep "me" 0 ["me", "A"]).2 = [PeerEvent.join "A"]
  ∧ (presenceSyncStep "me" (presenceSyncStep "me" 0 ["me", "A"]).1
      ["me", "A", "B"]).2 = [PeerEvent.join "A", PeerEvent.join "B"] := by
  constructor <;> rfl

/-- C5 amended: on every presence sync the peer count is recomputed as the
membership-set size minus one; an increase fires `onPeerJoin` once per
currently present non-self key — including keys already known — a decrease
fires a single `onPeerLeave` carrying the `"unknown"` sentinel, and an
unchanged count fires nothing. -/
theorem c5_relay_membership_amended (selfId : String) (oldCount : Int)
    (keys : List String) (hnd : keys.Nodup) :
    (presenceSyncStep selfId oldCount keys).1 = (keys.length : Int) - 1
  ∧ ((keys.length : Int) - 1 > oldCount →
      ∀ k : String,
        (presenceSyncStep selfId oldCount keys).2.count (PeerEvent.join k) =
          if k ∈ keys ∧ k ≠ selfId then 1 else 0)
  ∧ ((keys.length : Int) - 1 < oldCount →
      (presenceSyncStep selfId oldCount keys).2 = [PeerEvent.leave "unknown"])
  ∧ ((keys.length : Int) - 1 = oldCount →
      (presenceSyncStep selfId oldCount keys).2 = []) := by
  refine ⟨rfl, ?_, ?_, ?_⟩
  · intro hgt k
    simp only [presenceSyncStep]
    rw [if_pos hgt]
    have hinj : Function.Injective PeerEvent.join := fun a b h => PeerEvent.join.inj h
    rw [List.count_map_of_injective _ PeerEvent.join hinj k]
    by_cases hk : k ∈ keys ∧ k ≠ selfId
    · rw [if_pos hk]
      have hmem : k ∈ keys.filter (fun x => x ≠ selfId) := by
        rw [List.mem_filter]
        exact ⟨hk.1, by simpa using hk.2⟩
      exact List.count_eq_one_of_mem (hnd.filter _) hmem
    · rw [if_neg hk]
      rw [List.count_eq_zero]
      intro hmem
      rw [List.mem_filter] at hmem
      exact hk ⟨hmem.1, by simpa using hmem.2⟩
  · intro hlt
    simp only [presenceSyncStep]
    rw [if_neg (by omega), if_pos hlt]
  · intro heq
    simp only [presenceSyncStep]
    rw [if_neg (by omega), if_neg (by omega)]

/-- Witness for C5's amended theorem: sync `{me, A}` from count 0 fires
exactly one join for A. -/
theorem c5_witness :
    (["me", "A"] : List String).Nodup
  ∧ (((["me", "A"] : List String).length : Int) - 1 > 0)
  ∧ (presenceSyncStep "me" 0 ["me", "A"]).2.count (PeerEvent.join "A") =
      if "A" ∈ (["me", "A"] : List String) ∧ "A" ≠ "me" then 1 else 0 :=
  ⟨by decide, by decide,
    (c5_relay_membership_amended "me" 0 ["me", "A"] (by decide)).2.1 (by decide) "A"⟩

/-- C6 counterexample: `connect` is not idempotent. Starting from a fresh
engine, a second `connect` call leaves the engine with two registered store
listeners (the first cleanup handle is overwritten without being invoked,
p2pSync.ts line 243), so one local edit adding a shape is broadcast twice,
not at most once. -/
theorem c6_counterexample :
    (connect meshStateInit).listenerCount = 1
  ∧ (connect (connect meshStateInit)).listenerCount = 2
  ∧ localEditBroadcasts (connect meshStateInit) ⟨[shapeRec], [], []⟩
      = [⟨[shapeRec], [], []⟩]
  ∧ localEditBroadcasts (connect (connect meshStateInit)) ⟨[shapeRec], [], []⟩
      = [⟨[shapeRec], [], []⟩, ⟨[shapeRec], [], []⟩] :=
  ⟨rfl, rfl, rfl, rfl⟩

/-- C6 amended: `connect` does not join the room twice — `setupRoom` is
idempotent and the room is joined after any `connect` — but each `connect`
call registers one additional local-change listener, and a local edit that
produces an outbound message is broadcast once per registered listener. -/
theorem c6_connect_amended (st : MeshState) (entry : ChangeEntry) (m : StoreChanges)
    (h : listenerEmission ChangeSource.user st.isApplyingRemoteChanges entry = some m) :
    setupRoom (setupRoom st) = setupRoom st
  ∧ (connect st).roomJoined = true
  ∧ (connect st).listenerCount = st.listenerCount + 1
  ∧ localEditBroadcasts st entry = List.replicate st.listenerCount m := by
  refine ⟨?_, ?_, ?_, ?_⟩
  · by_cases hr : st.roomJoined <;> simp [setupRoom, hr]
  · by_cases hr : st.roomJoined <;> simp [connect, setupRoom, hr]
  · by_cases hr : st.roomJoined <;> simp [connect, setupRoom, hr]
  · rw [localEditBroadcasts, h]
    exact List.filterMap_replicate_of_some rfl

/-- Witness for C6's amended theorem: on the joined one-listener state, a
shape-adding edit yields exactly one copy of the broadcast. -/
theorem c6_witness :
    listenerEmission ChangeSource.user meshStateJoined.isApplyingRemoteChanges
      ⟨[shapeRec], [], []⟩ = some ⟨[shapeRec], [], []⟩
  ∧ localEditBroadcasts meshStateJoined ⟨[shapeRec], [], []⟩
      = List.replicate meshStateJoined.listenerCount ⟨[shapeRec], [], []⟩ :=
  ⟨rfl, (c6_connect_amended meshStateJoined ⟨[shapeRec], [], []⟩
    ⟨[shapeRec], [], []⟩ rfl).2.2.2⟩

/-- C8: debounced persistence. For any burst of `debouncedSave` invocations
whose consecutive invocation times are less than the 1000 ms quiet period
apart, exactly one durable save is issued, at the last invocation time plus
1000 ms — in particular ten edits within 500 ms yield one save. -/
theorem c8_debounced_save (t : Nat) (rest : List Nat)
    (h : isCloseBurst (t :: rest) = true) :
    debounceRun (t :: rest) = [(t :: rest).getLastD 0 + 1000] := by
  rw [debounceRun, List.getLastD_cons]
  show debounceGo rest (some (t + 1000)) = [rest.getLastD t + 1000]
  induction rest generalizing t with
  | nil => simp [debounceGo, List.getLastD]
  | cons b rs ih =>
    have hb : (t ≤ b ∧ b < t + 1000) ∧ isCloseBurst (b :: rs) = true := by
      simpa [isCloseBurst] using h
    simp only [debounceGo]
    rw [if_neg (Nat.not_le.mpr hb.1.2), List.getLastD_cons]
    exact ih b hb.2

/-- Witness for C8: ten invocations 50 ms apart produce the single save at
1450 ms. -/
theorem c8_witness :
    isCloseBurst [0, 50, 100, 150, 200, 250, 300, 350, 400, 450] = true
  ∧ debounceRun [0, 50, 100, 150, 200, 250, 300, 350, 400, 450] = [1450] := by
  refine ⟨by decide, ?_⟩
  rw [c8_debounced_save 0 [50, 100, 150, 200, 250, 300, 350, 400, 450] (by decide)]
  rfl

end HatTrick
